import Mathlib

/-
Shallow embedding of the repository's single source file,
`Premium Web App Interface/telegram-bot/bot.py`.

Python numbers coming from the analysis JSON are IEEE binary64 values (or
arbitrary-precision ints); they are modelled as exact rationals.  The float
operations the script performs (`/`, `*`) are modelled as correct rounding to
53 significant bits with round-to-nearest, ties-to-even, which is exactly what
binary64 arithmetic does in the value range exercised here (no overflow, no
subnormals).  `f"{x:.Nf}"` fixed-point printing rounds the exact value of the
binary64 argument half-to-even at N decimal places, and is modelled that way.
-/

/-- Round `num/den` to the nearest integer, ties to even (`den > 0`). -/
def rne (num den : Nat) : Nat :=
  let q := num / den
  let r := num % den
  if 2 * r < den then q
  else if den < 2 * r then q + 1
  else if q % 2 = 0 then q else q + 1

/-- Fuel-driven floor of log₂; `natLog2F n n` is exact for `n ≥ 1`. -/
def natLog2F : Nat → Nat → Nat
  | 0, _ => 0
  | fuel + 1, n => if n ≤ 1 then 0 else natLog2F fuel (n / 2) + 1

def natLog2' (n : Nat) : Nat := natLog2F n n

/-- Is `a/b ≥ 2^k`?  (`a`, `b` positive.) -/
def qGePow2 (a b : Nat) (k : Int) : Bool :=
  if 0 ≤ k then decide (b * 2 ^ k.toNat ≤ a) else decide (b ≤ a * 2 ^ (-k).toNat)

/-- Floor of log₂ of the positive rational `a/b`. -/
def ilog2Q (a b : Nat) : Int :=
  let k : Int := (natLog2' a : Int) - (natLog2' b : Int)
  if qGePow2 a b k then k else k - 1

/-- The binary64 value nearest to the positive rational `a/b`, as a pair
`(m, e)` denoting `m · 2^e` with `2^52 ≤ m ≤ 2^53`. -/
def rdPos (a b : Nat) : Nat × Int :=
  let e : Int := ilog2Q a b - 52
  let m : Nat := if 0 ≤ e then rne a (b * 2 ^ e.toNat) else rne (a * 2 ^ (-e).toNat) b
  (m, e)

/-- Compute `round(double(a/b) * 10^digits)` with ties to even: the integer whose
decimal rendering is produced by Python's `f"{a/b:.{digits}f}"` (for `a/b ≥ 0`). -/
def scaledDecimal (a b digits : Nat) : Nat :=
  if a = 0 then 0 else
  let me := rdPos a b
  if 0 ≤ me.2 then me.1 * 10 ^ digits * 2 ^ me.2.toNat
  else rne (me.1 * 10 ^ digits) (2 ^ (-me.2).toNat)

def digitChar : Nat → Char
  | 0 => '0'
  | 1 => '1'
  | 2 => '2'
  | 3 => '3'
  | 4 => '4'
  | 5 => '5'
  | 6 => '6'
  | 7 => '7'
  | 8 => '8'
  | 9 => '9'
  | _ => '*'

def natDigitsAux : Nat → Nat → List Char
  | 0, _ => []
  | fuel + 1, n =>
    if n < 10 then [digitChar n] else natDigitsAux fuel (n / 10) ++ [digitChar (n % 10)]

/-- Decimal rendering of a natural number. -/
def natStr (n : Nat) : String := String.mk (natDigitsAux (n + 1) n)

/-- Decimal rendering of an integer (Python `str`/`f"{i}"`). -/
def intStr (i : Int) : String := (if i < 0 then "-" else "") ++ natStr i.natAbs

/-- Render `natStr n` left-padded with zeros to (at least) `d` characters. -/
def padZeros (d n : Nat) : String :=
  String.mk (List.replicate (d - (natStr n).length) '0') ++ natStr n

/-- Decimal rendering of the scaled integer `n` with `digits` decimal places. -/
def renderFixed (n digits : Nat) : String :=
  if digits = 0 then natStr n
  else natStr (n / 10 ^ digits) ++ "." ++ padZeros digits (n % 10 ^ digits)

/-- The integer Python's `f"{v/denom:.{digits}f}"` prints, scaled by `10^digits`
(sign dropped): fixed-point rounding of the binary64 quotient. -/
def mcapScaled (v : ℚ) (denom digits : Nat) : Nat :=
  scaledDecimal v.num.natAbs (v.den * denom) digits

/-- Python `f"{v/denom:.{digits}f}"` (binary64 division, fixed-point print). -/
def pyDivFixed (v : ℚ) (denom digits : Nat) : String :=
  (if v < 0 then "-" else "") ++ renderFixed (mcapScaled v denom digits) digits

/-- Function `format_market_cap` from bot.py; `none` models a falsy (absent) value. -/
def format_market_cap : Option ℚ → String
  | none => "$0"
  | some value =>
    if value = 0 then "$0"
    else if 1000000 ≤ value then "$" ++ pyDivFixed value 1000000 2 ++ "M"
    else if 1000 ≤ value then "$" ++ pyDivFixed value 1000 1 ++ "K"
    else "$" ++ pyDivFixed value 1 0

/-- Compute `int((current/total) * L)` under binary64 semantics (for `L = 20, 100`). -/
def progressScaled (current total L : Nat) : Nat :=
  if current = 0 then 0 else
  let me := rdPos current total
  let p := me.1 * L
  let lb := natLog2' p
  let m2 := if lb ≤ 52 then p else rne p (2 ^ (lb - 52))
  let e2 : Int := me.2 + (lb - 52 : Nat)
  if 0 ≤ e2 then m2 * 2 ^ e2.toNat else m2 / 2 ^ (-e2).toNat

/-- Function `format_progress_bar` from bot.py. -/
def format_progress_bar (current total : Nat) : String :=
  let percentage := progressScaled current total 100
  let filled := progressScaled current total 20
  let bar := String.mk (List.replicate filled '█') ++ String.mk (List.replicate (20 - filled) '░')
  "[" ++ bar ++ "] " ++ natStr percentage ++ "%"

/-
Data model.  JSON dict fields are modelled as `Option`s; `none` is an
absent key.  A Python dict is falsy exactly when it is empty, which for the
analysis payload is modelled by `Analysis.nonempty` below (a key mapped to a
falsy value is treated as absent, the only use the script makes of one).
-/

/-- A per-step outcome dict from the analysis payload. -/
structure StepResult where
  value : Option String
  status : Option String
  reason : Option String
deriving DecidableEq

/-- One scenario dict inside `marketCapPredictions`. -/
structure PredEntry where
  mcap : Option ℚ
  multiplier : Option String
  probability : Option Int
  timeframe : Option String

def emptyEntry : PredEntry := ⟨none, none, none, none⟩

/-- The `marketCapPredictions` block. -/
structure Predictions where
  conservative : Option PredEntry
  moderate : Option PredEntry
  aggressive : Option PredEntry

/-- The `analysis` dict of the payload. -/
structure Analysis where
  bundles : Option StepResult
  devHistory : Option StepResult
  topHolders : Option StepResult
  chart : Option StepResult
  freshWallets : Option StepResult
  devSold : Option StepResult
  lore : Option StepResult
  socials : Option StepResult
  marketCapPredictions : Option Predictions
  currentMarketCap : Option ℚ
  overallProbability : Option Int
  riskLevel : Option String
  recommendation : Option String

/-- Lookup `analysis.get(step_key)` for the eight step keys. -/
def Analysis.step (a : Analysis) (key : String) : Option StepResult :=
  if key = "bundles" then a.bundles
  else if key = "devHistory" then a.devHistory
  else if key = "topHolders" then a.topHolders
  else if key = "chart" then a.chart
  else if key = "freshWallets" then a.freshWallets
  else if key = "devSold" then a.devSold
  else if key = "lore" then a.lore
  else if key = "socials" then a.socials
  else none

/-- Truthiness of the `analysis` dict (`if analysis:` in bot.py). -/
def Analysis.nonempty (a : Analysis) : Bool :=
  a.bundles.isSome || a.devHistory.isSome || a.topHolders.isSome || a.chart.isSome ||
  a.freshWallets.isSome || a.devSold.isSome || a.lore.isSome || a.socials.isSome ||
  a.marketCapPredictions.isSome || a.currentMarketCap.isSome ||
  a.overallProbability.isSome || a.riskLevel.isSome || a.recommendation.isSome

/-- The `metadata` dict of the payload. -/
structure Metadata where
  name : Option String
  symbol : Option String

/-- The `metrics` dict of the payload. -/
structure Metrics where
  marketCap : Option ℚ
  volume24h : Option ℚ
  liquidityUSD : Option ℚ

/-- One entry of the `ANALYSIS_STEPS` catalog. -/
structure StepInfo where
  key : String
  label : String
  icon : String

/-- The fixed step catalog from bot.py. -/
def ANALYSIS_STEPS : List StepInfo :=
  [⟨"bundles", "Bundle Detection", "🎯"⟩,
   ⟨"devHistory", "Developer History", "👤"⟩,
   ⟨"topHolders", "Top Holders Analysis", "👥"⟩,
   ⟨"chart", "Chart Pattern Analysis", "📈"⟩,
   ⟨"freshWallets", "Fresh Wallet Activity", "✨"⟩,
   ⟨"devSold", "Developer Activity", "⚡"⟩,
   ⟨"lore", "Lore & Narrative", "📖"⟩,
   ⟨"socials", "Social Media Presence", "🌐"⟩]

/-- Python `s[:n]` (by code points). -/
def pyTake (s : String) (n : Nat) : String := String.mk (s.data.take n)

/-- Python `f"{s:<w}"`: left-justify, pad with spaces to width `w`. -/
def padR (s : String) (w : Nat) : String :=
  s ++ String.mk (List.replicate (w - s.length) ' ')

def isWsChar (c : Char) : Bool := c.isWhitespace

/-- Python `str.strip()`: drop whitespace from both ends (back end first). -/
def pyStrip (s : String) : String :=
  String.mk (((s.data.reverse.dropWhile isWsChar).reverse).dropWhile isWsChar)

def splitWsAux : List Char → List Char → List (List Char)
  | [], acc => if acc = [] then [] else [acc.reverse]
  | c :: cs, acc =>
    if isWsChar c then
      (if acc = [] then splitWsAux cs [] else acc.reverse :: splitWsAux cs [])
    else splitWsAux cs (c :: acc)

/-- Python `str.split()` with no argument: split on whitespace runs,
no empty tokens. -/
def pySplitWs (s : String) : List String := (splitWsAux s.data []).map String.mk

/-- The reason truncation in `format_analysis_step`
(`reason[:67] + "..." if len(reason) > 70`). -/
def truncateReason (reason : String) : String :=
  if 70 < reason.length then pyTake reason 67 ++ "..." else reason

/-- The greedy word-wrap loop of `format_analysis_step`, accumulating the
stripped lines (`acc`) and the current line under construction (`cur`). -/
def wrapAux : List String → String → List String → List String
  | [], cur, acc => if cur = "" then acc else acc ++ [pyStrip cur]
  | w :: ws, cur, acc =>
    if (cur ++ w).length ≤ 27 then wrapAux ws (cur ++ w ++ " ") acc
    else if cur = "" then wrapAux ws (w ++ " ") acc
    else wrapAux ws (w ++ " ") (acc ++ [pyStrip cur])

/-- The list of wrapped lines `format_analysis_step` builds for a reason. -/
def wrapLines (reason : String) : List String := wrapAux (pySplitWs reason) "" []

/-- Build `wrapped_reason`: the wrapped lines joined by the indented continuation
prefix (the incremental string building in bot.py produces exactly this). -/
def wrappedReason (reason : String) : String :=
  String.intercalate "\n   " (wrapLines reason)

/-- Function `format_analysis_step` from bot.py (`step_index`/`total_steps` are unused
in the source body as well). -/
def format_analysis_step (step_key : String) (step_data : StepResult)
    (step_index total_steps : Nat) : String :=
  match ANALYSIS_STEPS.find? (fun s => s.key == step_key) with
  | none => ""
  | some step_info =>
    let value := step_data.value.getD "N/A"
    let status := step_data.status.getD "info"
    let reason := step_data.reason.getD ""
    let status_emoji :=
      ((([("safe", "✅"), ("warning", "⚠️"), ("danger", "❌"),
          ("info", "ℹ️"), ("neutral", "ℹ️")] : List (String × String)).lookup
        status).getD "ℹ️")
    "\n" ++ step_info.icon ++ " " ++ step_info.label ++ "\n   " ++ status_emoji ++
      " " ++ value ++ "\n   " ++ wrappedReason (truncateReason reason)

/-- Function `format_token_overview` from bot.py. -/
def format_token_overview (metadata : Metadata) (metrics : Metrics) : String :=
  let name := metadata.name.getD "Unknown"
  let symbol := metadata.symbol.getD "N/A"
  let market_cap := format_market_cap (some (metrics.marketCap.getD 0))
  let volume := format_market_cap (some (metrics.volume24h.getD 0))
  let liquidity := format_market_cap (some (metrics.liquidityUSD.getD 0))
  let name := if 25 < name.length then pyTake name 25 else name
  let symbol := if 23 < symbol.length then pyTake symbol 23 else symbol
  "📊 Token Overview\n┌─────────────────────────────┐\n│ Name: " ++ padR name 25 ++
    " │\n│ Symbol: " ++ padR symbol 23 ++ " │\n│ Market Cap: " ++ padR market_cap 18 ++
    " │\n│ Volume 24h: " ++ padR volume 19 ++ " │\n│ Liquidity: " ++ padR liquidity 20 ++
    " │\n└─────────────────────────────┘"

/-- One scenario sub-box of `format_predictions`. -/
def predEntryLines (e : PredEntry) : String :=
  "\n│    Target: " ++ padR (format_market_cap (some (e.mcap.getD 0))) 18 ++
  " │\n│    Multiplier: " ++ padR (e.multiplier.getD "N/A") 15 ++
  " │\n│    Probability: " ++ intStr (e.probability.getD 0) ++
  "%            │\n│    Timeframe: " ++ padR (e.timeframe.getD "N/A") 16 ++ " │"

/-- Function `format_predictions` from bot.py; `none` models a falsy `predictions`
argument (`if not predictions: return ""`); `current_mcap` is unused in the
source body as well. -/
def format_predictions : Option Predictions → ℚ → String
  | none, _ => ""
  | some predictions, _ =>
    "\n📈 Market Cap Predictions\n┌─────────────────────────────┐\n│ 🟢 Conservative             │" ++
    predEntryLines (predictions.conservative.getD emptyEntry) ++
    "\n├─────────────────────────────┤\n│ 🟡 Moderate                 │" ++
    predEntryLines (predictions.moderate.getD emptyEntry) ++
    "\n├─────────────────────────────┤\n│ 🔴 Aggressive               │" ++
    predEntryLines (predictions.aggressive.getD emptyEntry) ++
    "\n└─────────────────────────────┘"

/-- The risk-level glyph table of `format_verdict`
(`{'Low': …, 'Medium': …, 'High': …}.get(risk_level, '🟡')`). -/
def riskEmoji (risk_level : String) : String :=
  ((([("Low", "🟢"), ("Medium", "🟡"), ("High", "🔴")] :
      List (String × String)).lookup risk_level).getD "🟡")

/-- The recommendation truncation of `format_verdict`
(`recommendation[:147] + "..." if len(recommendation) > 150`). -/
def truncRecommendation (recommendation : String) : String :=
  if 150 < recommendation.length then pyTake recommendation 147 ++ "..."
  else recommendation

/-- Function `format_verdict` from bot.py. -/
def format_verdict (analysis : Analysis) : String :=
  let probability := analysis.overallProbability.getD 0
  let risk_level := analysis.riskLevel.getD "Medium"
  let recommendation := truncRecommendation (analysis.recommendation.getD "")
  "\n🎯 Overall Verdict\n┌─────────────────────────────┐\n│ Win Probability: " ++
    intStr probability ++ "%        │\n│ Risk Level: " ++ riskEmoji risk_level ++
    " " ++ padR risk_level 18 ++
    " │\n├─────────────────────────────┤\n│ " ++ padR recommendation 27 ++
    " │\n└─────────────────────────────┘"

/-
Message composer: `format_analysis_message`.  The Python function builds a
`lines` list and returns `"\n".join(lines)`; the list is modelled by
`messageLines` below, block by block in source order.
-/

/-- The truncated address shown in the header. -/
def displayAddress (token_address : String) : String :=
  if 20 < token_address.length then pyTake token_address 20 ++ "..."
  else token_address

/-- The four unconditional leading lines of the message. -/
def headerLines (token_address : String) (metadata : Metadata) (metrics : Metrics) :
    List String :=
  ["🔍 Analyzing Token", "`" ++ displayAddress token_address ++ "`", "",
   format_token_overview metadata metrics]

/-- The `steps_completed` list: the loop over `enumerate(ANALYSIS_STEPS)`
appending the panel of every step that is present and already revealed. -/
def stepsCompleted (a : Analysis) (current_step total_steps : Nat) : List String :=
  ANALYSIS_STEPS.enum.foldl
    (fun steps_completed p =>
      match a.step p.2.key with
      | some step_data =>
        if p.1 < current_step then
          steps_completed ++ [format_analysis_step p.2.key step_data p.1 total_steps]
        else steps_completed
      | none => steps_completed)
    []

/-- The "Analysis Results" block: header line plus completed panels,
omitted when no panel is visible. -/
def resultsBlock (a : Analysis) (current_step total_steps : Nat) : List String :=
  if (stepsCompleted a current_step total_steps).isEmpty then []
  else "\n📋 Analysis Results:" :: stepsCompleted a current_step total_steps

/-- The in-progress line `"\n⏳ Analyzing... (cur/total)"`. -/
def analyzingLine (current_step total_steps : Nat) : String :=
  "\n⏳ Analyzing... (" ++ natStr current_step ++ "/" ++ natStr total_steps ++ ")"

/-- The progress block (`if current_step < total_steps and not show_complete`). -/
def progressBlock (current_step total_steps : Nat) (show_complete : Bool) :
    List String :=
  if current_step < total_steps ∧ show_complete = false then
    [analyzingLine current_step total_steps,
     format_progress_bar current_step total_steps]
  else []

/-- The predictions block (`if (current_step >= total_steps or show_complete)
and analysis.get('marketCapPredictions')`). -/
def predictionsBlock (a : Analysis) (current_step total_steps : Nat)
    (show_complete : Bool) : List String :=
  if (total_steps ≤ current_step ∨ show_complete = true) ∧
      a.marketCapPredictions.isSome then
    [format_predictions a.marketCapPredictions (a.currentMarketCap.getD 0)]
  else []

/-- The verdict block (`if show_complete and analysis.get('overallProbability')
is not None`). -/
def verdictBlock (a : Analysis) (show_complete : Bool) : List String :=
  if show_complete = true ∧ a.overallProbability.isSome then [format_verdict a]
  else []

/-- The `lines` list of `format_analysis_message`. -/
def messageLines (token_address : String) (metadata : Metadata) (metrics : Metrics)
    (a : Analysis) (current_step total_steps : Nat) (show_complete : Bool) :
    List String :=
  headerLines token_address metadata metrics ++
  (if a.nonempty then
      resultsBlock a current_step total_steps ++
      progressBlock current_step total_steps show_complete ++
      predictionsBlock a current_step total_steps show_complete ++
      verdictBlock a show_complete
    else [])

/-- Function `format_analysis_message` from bot.py. -/
def format_analysis_message (token_address : String) (metadata : Metadata)
    (metrics : Metrics) (a : Analysis) (current_step total_steps : Nat)
    (show_complete : Bool) : String :=
  String.intercalate "\n"
    (messageLines token_address metadata metrics a current_step total_steps
      show_complete)

/-
Update sequencer: the post-fetch tail of `handle_token_address`.  The edits it
performs are determined by the payload; each `edit_text` call either succeeds
or raises a `TelegramError` carrying a message string, supplied here by an
oracle list of outcomes.  An edit failure whose lowered text contains
"message is not modified" is swallowed; any other one escapes to the outer
`except Exception` handler, which reports an unexpected error and ends the
sequence.
-/

/-- The `(current_step, show_complete)` arguments of the successive
`format_analysis_message` calls the handler edits into the message. -/
def sequencerCalls (a : Analysis) : List (Nat × Bool) :=
  (0, false) ::
  (ANALYSIS_STEPS.enum.filterMap
      (fun p => if (a.step p.2.key).isSome then some (p.1 + 1, false) else none) ++
    (if a.marketCapPredictions.isSome then [(ANALYSIS_STEPS.length, false)] else []) ++
    (if a.overallProbability.isSome then [(ANALYSIS_STEPS.length, true)] else []))

/-- Outcome of one `edit_text` call on the transport. -/
inductive EditOutcome where
  | ok : EditOutcome
  | raised : String → EditOutcome
deriving DecidableEq

/-- Python `needle in hay` on chars (`listPrefixB` is the anchored check). -/
def listPrefixB : List Char → List Char → Bool
  | [], _ => true
  | _ :: _, [] => false
  | a :: as, b :: bs => a == b && listPrefixB as bs

def listInfixB : List Char → List Char → Bool
  | n, [] => n.isEmpty
  | n, c :: t => listPrefixB n (c :: t) || listInfixB n t

/-- Python `needle in hay` for strings. -/
def strContains (hay needle : String) : Bool := listInfixB needle.data hay.data

/-- Python `str.lower()` (character-wise). -/
def pyLower (s : String) : String := String.mk (s.data.map Char.toLower)

/-- The distinguished content-unchanged marker the handler looks for. -/
def notModifiedNeedle : String := "message is not modified"

/-- One guarded edit: the `try/except TelegramError` around `edit_text`
(`if "message is not modified" not in str(e).lower(): raise`). -/
def attemptEdit : EditOutcome → Except String Unit
  | .ok => .ok ()
  | .raised s =>
    if strContains (pyLower s) notModifiedNeedle then .ok () else .error s

/-- The final report of the outer `except Exception` handler. -/
def unexpectedErrorText (s : String) : String :=
  "❌ Unexpected Error\n\nError: " ++ s ++ "\n\nPlease try again later."

/-- Run the planned edits against an oracle of outcomes: returns the texts
whose edit call returned (or was treated as success) and, if a failure
escalated, the final error report; edits past the oracle succeed. -/
def runSeqAux : List String → List EditOutcome → List String × Option String
  | [], _ => ([], none)
  | ts, [] => (ts, none)
  | t :: ts, o :: os =>
    match attemptEdit o with
    | .ok _ => ((t :: (runSeqAux ts os).1), (runSeqAux ts os).2)
    | .error s => ([], some (unexpectedErrorText s))

/-- The whole post-fetch sequence for one request. -/
def runSequencer (token_address : String) (metadata : Metadata) (metrics : Metrics)
    (a : Analysis) (outcomes : List EditOutcome) : List String × Option String :=
  runSeqAux
    ((sequencerCalls a).map
      (fun c => format_analysis_message token_address metadata metrics a c.1
        ANALYSIS_STEPS.length c.2))
    outcomes

/-- The per-step selector implicit in the `steps_completed` loop: the panel a
catalog entry `(i, step_info)` contributes, if any. -/
def stepSelect (a : Analysis) (current_step total_steps : Nat)
    (p : Nat × StepInfo) : Option String :=
  match a.step p.2.key with
  | some step_data =>
    if p.1 < current_step then
      some (format_analysis_step p.2.key step_data p.1 total_steps)
    else none
  | none => none

/-- A payload with two step results present (used to instantiate theorems). -/
def aDemo : Analysis :=
  ⟨some ⟨some "12 bundles", some "warning", some "Coordinated buys detected"⟩,
   some ⟨some "Clean", some "safe", some "No prior rugs found"⟩,
   none, none, none, none, none, none, none, none, none, none, none⟩

/-- The all-absent `analysis` dict (`{}`, which is falsy in Python). -/
def emptyAnalysis : Analysis :=
  ⟨none, none, none, none, none, none, none, none, none, none, none, none, none⟩

def addrEx : String := "So11111111111111111111111111111111111111112"

def mdEx : Metadata := ⟨none, none⟩

def mtEx : Metrics := ⟨none, none, none⟩

/-- A 151-character recommendation (used to instantiate theorems). -/
def recEx : String := String.mk (List.replicate 151 'x')

example : format_market_cap (some 500) = "$500" := by decide
example : format_market_cap (some 1015000) = "$1.01M" := by decide
example : format_market_cap (some (-5000)) = "$-5000" := by decide
example : format_market_cap (some 0) = "$0" := by decide
example : format_market_cap (some 2500) = "$2.5K" := by decide
example : progressScaled 29 100 100 = 28 := by decide
example : progressScaled 3 8 100 = 37 := by decide
example : progressScaled 3 8 20 = 7 := by decide
example : format_progress_bar 3 8 = "[███████░░░░░░░░░░░░░] 37%" := by decide

/-
Helper lemmas.
-/

theorem strData_append (a b : String) : (a ++ b).data = a.data ++ b.data := rfl

theorem strLen_mk (l : List Char) : (String.mk l).length = l.length := rfl

theorem strLen_append (a b : String) : (a ++ b).length = a.length + b.length := by
  show (a.data ++ b.data).length = a.data.length + b.data.length
  exact List.length_append a.data b.data

theorem strExt (a b : String) (h : a.data = b.data) : a = b := by
  cases a
  cases b
  exact congrArg String.mk h

theorem strNil_append (s : String) : "" ++ s = s := by
  apply strExt
  simp [strData_append]

theorem foldl_select_eq_filterMap {α β : Type} (f : α → Option β) :
    ∀ (l : List α) (acc : List β),
      l.foldl (fun acc x => acc ++ (f x).toList) acc = acc ++ l.filterMap f := by
  intro l
  induction l with
  | nil => intro acc; simp
  | cons x xs ih =>
    intro acc
    simp only [List.foldl_cons, List.filterMap_cons]
    cases h : f x with
    | none => simp [h, ih]
    | some b => simp [h, ih]

theorem stepsCompleted_eq_filterMap (a : Analysis) (current_step total_steps : Nat) :
    stepsCompleted a current_step total_steps =
      ANALYSIS_STEPS.enum.filterMap (stepSelect a current_step total_steps) := by
  have hf : (fun (acc : List String) (p : Nat × StepInfo) =>
      match a.step p.2.key with
      | some step_data =>
        if p.1 < current_step then
          acc ++ [format_analysis_step p.2.key step_data p.1 total_steps]
        else acc
      | none => acc) =
      (fun acc p => acc ++ (stepSelect a current_step total_steps p).toList) := by
    funext acc p
    unfold stepSelect
    cases a.step p.2.key with
    | none => simp
    | some d => by_cases h : p.1 < current_step <;> simp [h]
  unfold stepsCompleted
  rw [hf]
  have h := foldl_select_eq_filterMap (stepSelect a current_step total_steps)
    ANALYSIS_STEPS.enum []
  simpa using h

theorem sublist_filterMap_of_imp {α β : Type} (f g : α → Option β)
    (h : ∀ x b, f x = some b → g x = some b) :
    ∀ l : List α, (l.filterMap f).Sublist (l.filterMap g) := by
  intro l
  induction l with
  | nil => simp
  | cons x xs ih =>
    simp only [List.filterMap_cons]
    cases hfx : f x with
    | some b =>
      rw [h x b hfx]
      exact ih.cons₂ b
    | none =>
      cases g x with
      | none => exact ih
      | some c => exact ih.cons c

theorem stepSelect_isSome {a : Analysis} {current_step total_steps : Nat}
    {p : Nat × StepInfo} {s : String}
    (h : stepSelect a current_step total_steps p = some s) :
    (a.step p.2.key).isSome = true := by
  unfold stepSelect at h
  cases hs : a.step p.2.key with
  | none => rw [hs] at h; exact absurd h (by simp)
  | some d => rfl

theorem step_isSome_nonempty {a : Analysis} {key : String}
    (h : (a.step key).isSome = true) : a.nonempty = true := by
  unfold Analysis.step at h
  unfold Analysis.nonempty
  split_ifs at h <;> simp_all

/-- C1: for every payload, reveal index and total, the `steps_completed` list
of the composer consists of exactly the panels of the catalog steps whose
index is strictly below the reveal index and whose step result is present in
the payload, in catalog order; steps at or beyond the reveal index contribute
nothing even when their result is present (`stepSelect` returns `none` for
them), and the composed message places this list inside its results block. -/
theorem step_panels_exact (a : Analysis) (current_step total_steps : Nat) :
    stepsCompleted a current_step total_steps =
      ANALYSIS_STEPS.enum.filterMap (stepSelect a current_step total_steps) ∧
    (∀ p : Nat × StepInfo, (a.step p.2.key).isSome = false →
      stepSelect a current_step total_steps p = none) ∧
    (∀ p : Nat × StepInfo, current_step ≤ p.1 →
      stepSelect a current_step total_steps p = none) ∧
    ∀ p : Nat × StepInfo, ∀ step_data, a.step p.2.key = some step_data →
      p.1 < current_step →
      stepSelect a current_step total_steps p =
        some (format_analysis_step p.2.key step_data p.1 total_steps) := by
  refine ⟨stepsCompleted_eq_filterMap a current_step total_steps, ?_, ?_, ?_⟩
  · intro p hp
    unfold stepSelect
    cases hs : a.step p.2.key with
    | none => rfl
    | some d => rw [hs] at hp; exact absurd hp (by simp)
  · intro p hp
    unfold stepSelect
    cases a.step p.2.key with
    | none => rfl
    | some d => simp [Nat.not_lt.mpr hp]
  · intro p step_data hs hlt
    unfold stepSelect
    rw [hs]
    simp [hlt]

/-- C3: advancing the reveal index only adds step panels: for `i < j` the
panel list at `i` is a sublist of the panel list at `j`, and every panel shown
at `i` occurs in the message composed at `j`. -/
theorem reveal_monotone (token_address : String) (metadata : Metadata)
    (metrics : Metrics) (a : Analysis) (total_steps : Nat) (show_complete : Bool)
    (i j : Nat) (hij : i < j) :
    (stepsCompleted a i total_steps).Sublist (stepsCompleted a j total_steps) ∧
    ∀ panel ∈ stepsCompleted a i total_steps,
      panel ∈ messageLines token_address metadata metrics a j total_steps
        show_complete := by
  have hsub : (stepsCompleted a i total_steps).Sublist
      (stepsCompleted a j total_steps) := by
    rw [stepsCompleted_eq_filterMap, stepsCompleted_eq_filterMap]
    refine sublist_filterMap_of_imp _ _ ?_ _
    intro p b hb
    unfold stepSelect at hb ⊢
    cases hs : a.step p.2.key with
    | none => rw [hs] at hb; exact absurd hb (by simp)
    | some d =>
      rw [hs] at hb
      by_cases hlt : p.1 < i
      · simp only [hlt, if_true] at hb
        simpa [hlt.trans hij] using hb
      · simp [hlt] at hb
  refine ⟨hsub, ?_⟩
  intro panel hp
  have hpj : panel ∈ stepsCompleted a j total_steps := hsub.subset hp
  have hne : a.nonempty = true := by
    have := hpj
    rw [stepsCompleted_eq_filterMap] at this
    obtain ⟨p, _, hsel⟩ := List.mem_filterMap.mp this
    exact step_isSome_nonempty (stepSelect_isSome hsel)
  have hmem : panel ∈ resultsBlock a j total_steps := by
    unfold resultsBlock
    rw [if_neg (by simpa using List.ne_nil_of_mem hpj)]
    exact List.mem_cons_of_mem _ hpj
  unfold messageLines
  rw [if_pos hne]
  simp only [List.mem_append]
  exact Or.inr (Or.inl (Or.inl (Or.inl hmem)))

/-- C2 (amended): when the analysis payload is non-empty (truthy), the reveal
index is strictly below the catalog length and completion is not forced, the
composed line list ends with the in-progress line followed by the progress
bar. -/
theorem in_progress_tail (token_address : String) (metadata : Metadata)
    (metrics : Metrics) (a : Analysis) (current_step total_steps : Nat)
    (hne : a.nonempty = true) (hlt : current_step < total_steps) :
    ∃ pre, messageLines token_address metadata metrics a current_step total_steps
        false =
      pre ++ [analyzingLine current_step total_steps,
        format_progress_bar current_step total_steps] := by
  refine ⟨headerLines token_address metadata metrics ++
    resultsBlock a current_step total_steps, ?_⟩
  unfold messageLines
  rw [if_pos hne]
  have hp : progressBlock current_step total_steps false =
      [analyzingLine current_step total_steps,
       format_progress_bar current_step total_steps] := by
    unfold progressBlock
    rw [if_pos ⟨hlt, rfl⟩]
  have hpred : predictionsBlock a current_step total_steps false = [] := by
    unfold predictionsBlock
    rw [if_neg]
    rintro ⟨h1 | h2, -⟩
    · exact absurd h1 (Nat.not_le.mpr hlt)
    · exact Bool.false_ne_true h2
  have hv : verdictBlock a false = [] := by
    unfold verdictBlock
    rw [if_neg]
    rintro ⟨h1, -⟩
    exact Bool.false_ne_true h1
  rw [hp, hpred, hv]
  simp

set_option maxRecDepth 8000 in
/-- C2 counterexample: with an empty (falsy) `analysis` dict the guard
`if analysis:` skips the whole progress section, so at reveal index 0 of 8
with completion not forced the composed message contains neither the
in-progress line nor the progress bar. -/
theorem in_progress_missing_counterexample :
    format_progress_bar 0 8 ∉
      messageLines addrEx mdEx mtEx emptyAnalysis 0 8 false ∧
    analyzingLine 0 8 ∉
      messageLines addrEx mdEx mtEx emptyAnalysis 0 8 false := by
  constructor <;> decide

/-- C2 witness. -/
theorem in_progress_tail_witness :
    aDemo.nonempty = true ∧ (3 : Nat) < 8 ∧
    ∃ pre, messageLines addrEx mdEx mtEx aDemo 3 8 false =
      pre ++ [analyzingLine 3 8, format_progress_bar 3 8] :=
  ⟨by decide, by decide, in_progress_tail addrEx mdEx mtEx aDemo 3 8 (by decide)
    (by decide)⟩

/-- C3 witness. -/
theorem reveal_monotone_witness :
    (1 : Nat) < 2 ∧
    ((stepsCompleted aDemo 1 8).Sublist (stepsCompleted aDemo 2 8) ∧
      ∀ panel ∈ stepsCompleted aDemo 1 8,
        panel ∈ messageLines addrEx mdEx mtEx aDemo 2 8 false) :=
  ⟨by decide, reveal_monotone addrEx mdEx mtEx aDemo 8 false 1 2 (by decide)⟩

/-- C4: in every message the sequencer edits into the chat for a request
(the calls listed by `sequencerCalls`), the predictions block and the verdict
block are empty whenever the reveal index is strictly below the catalog
length: predictions and verdict can only appear once the index has reached
it. -/
theorem gated_final_blocks (a : Analysis) (current_step : Nat) (show_complete : Bool)
    (hmem : (current_step, show_complete) ∈ sequencerCalls a)
    (hlt : current_step < ANALYSIS_STEPS.length) :
    predictionsBlock a current_step ANALYSIS_STEPS.length show_complete = [] ∧
    verdictBlock a show_complete = [] := by
  have hsc : show_complete = false := by
    unfold sequencerCalls at hmem
    rcases List.mem_cons.mp hmem with h0 | hrest
    · simpa using congrArg Prod.snd h0
    · rcases List.mem_append.mp hrest with h1 | h2
      · rcases List.mem_append.mp h1 with h3 | h4
        · obtain ⟨p, -, hsel⟩ := List.mem_filterMap.mp h3
          by_cases hps : (a.step p.2.key).isSome = true
          · rw [if_pos hps] at hsel
            have h5 := Option.some.inj hsel
            simpa using (congrArg Prod.snd h5).symm
          · rw [if_neg hps] at hsel
            exact absurd hsel (by simp)
        · by_cases hm : a.marketCapPredictions.isSome = true
          · rw [if_pos hm] at h4
            simpa using congrArg Prod.snd (List.mem_singleton.mp h4)
          · rw [if_neg hm] at h4
            exact absurd h4 (List.not_mem_nil _)
      · by_cases ho : a.overallProbability.isSome = true
        · rw [if_pos ho] at h2
          have hcur : current_step = ANALYSIS_STEPS.length := by
            simpa using congrArg Prod.fst (List.mem_singleton.mp h2)
          exact absurd (hcur ▸ hlt) (lt_irrefl _)
        · rw [if_neg ho] at h2
          exact absurd h2 (List.not_mem_nil _)
  subst hsc
  constructor
  · unfold predictionsBlock
    rw [if_neg]
    rintro ⟨h1 | h2, -⟩
    · exact absurd h1 (Nat.not_le.mpr hlt)
    · exact Bool.false_ne_true h2
  · unfold verdictBlock
    rw [if_neg]
    rintro ⟨h1, -⟩
    exact Bool.false_ne_true h1

/-- C4 witness. -/
theorem gated_final_blocks_witness :
    ((1 : Nat), false) ∈ sequencerCalls aDemo ∧ (1 : Nat) < ANALYSIS_STEPS.length ∧
    (predictionsBlock aDemo 1 ANALYSIS_STEPS.length false = [] ∧
      verdictBlock aDemo false = []) :=
  ⟨by decide, by decide, gated_final_blocks aDemo 1 false (by decide) (by decide)⟩

theorem length_dropWhile_le' {α : Type} (p : α → Bool) :
    ∀ l : List α, (l.dropWhile p).length ≤ l.length := by
  intro l
  induction l with
  | nil => simp
  | cons x xs ih =>
    rw [List.dropWhile_cons]
    by_cases h : p x = true
    · rw [if_pos h]
      exact ih.trans (Nat.le_succ _)
    · rw [if_neg h]

theorem pyStrip_length_le (s : String) : (pyStrip s).length ≤ s.length := by
  unfold pyStrip
  rw [strLen_mk]
  calc ((s.data.reverse.dropWhile isWsChar).reverse.dropWhile isWsChar).length
      ≤ (s.data.reverse.dropWhile isWsChar).reverse.length :=
        length_dropWhile_le' _ _
    _ = (s.data.reverse.dropWhile isWsChar).length := List.length_reverse _
    _ ≤ s.data.reverse.length := length_dropWhile_le' _ _
    _ = s.data.length := List.length_reverse _

theorem pyStrip_append_space (s : String) : pyStrip (s ++ " ") = pyStrip s := by
  unfold pyStrip
  congr 1
  have hd : (s ++ " ").data = s.data ++ [' '] := rfl
  rw [hd, List.reverse_append]
  have : ([' '].reverse ++ s.data.reverse).dropWhile isWsChar =
      s.data.reverse.dropWhile isWsChar := by
    simp [List.dropWhile_cons, isWsChar]
  rw [this]

theorem pyStrip_empty : pyStrip "" = "" := rfl

theorem wrapAux_bound : ∀ (ws : List String) (cur : String) (acc : List String),
    (∀ w ∈ ws, w.length ≤ 27) → (pyStrip cur).length ≤ 27 →
    (∀ l ∈ acc, l.length ≤ 27) → ∀ l ∈ wrapAux ws cur acc, l.length ≤ 27 := by
  intro ws
  induction ws with
  | nil =>
    intro cur acc _ hcur hacc l hl
    rw [wrapAux] at hl
    by_cases hc : cur = ""
    · rw [if_pos hc] at hl
      exact hacc l hl
    · rw [if_neg hc] at hl
      rcases List.mem_append.mp hl with h | h
      · exact hacc l h
      · rw [List.mem_singleton.mp h]
        exact hcur
  | cons w ws ih =>
    intro cur acc hws hcur hacc l hl
    rw [wrapAux] at hl
    have hwtail : ∀ w' ∈ ws, w'.length ≤ 27 :=
      fun w' hw' => hws w' (List.mem_cons_of_mem _ hw')
    have hwhead : w.length ≤ 27 := hws w (List.mem_cons_self _ _)
    by_cases h1 : (cur ++ w).length ≤ 27
    · rw [if_pos h1] at hl
      refine ih (cur ++ w ++ " ") acc hwtail ?_ hacc l hl
      rw [pyStrip_append_space]
      exact (pyStrip_length_le _).trans h1
    · rw [if_neg h1] at hl
      by_cases h2 : cur = ""
      · rw [if_pos h2] at hl
        refine ih (w ++ " ") acc hwtail ?_ hacc l hl
        rw [pyStrip_append_space]
        exact (pyStrip_length_le _).trans hwhead
      · rw [if_neg h2] at hl
        refine ih (w ++ " ") (acc ++ [pyStrip cur]) hwtail ?_ ?_ l hl
        · rw [pyStrip_append_space]
          exact (pyStrip_length_le _).trans hwhead
        · intro l' hl'
          rcases List.mem_append.mp hl' with h | h
          · exact hacc l' h
          · rw [List.mem_singleton.mp h]
            exact hcur

/-- C6 (amended): the step formatter first truncates the reason to at most 70
characters (67 plus a three-character ellipsis when longer than 70), and the
greedy wrap then keeps every line within 27 characters provided every
whitespace-delimited word of the truncated reason is itself at most 27
characters long (the wrapper never breaks a single word, so an over-long word
survives as an over-long line). -/
theorem reason_truncation_wrap (reason : String)
    (hwords : ∀ w ∈ pySplitWs (truncateReason reason), w.length ≤ 27) :
    (truncateReason reason).length ≤ 70 ∧
    (70 < reason.length → truncateReason reason = pyTake reason 67 ++ "...") ∧
    (reason.length ≤ 70 → truncateReason reason = reason) ∧
    ∀ l ∈ wrapLines (truncateReason reason), l.length ≤ 27 := by
  refine ⟨?_, ?_, ?_, ?_⟩
  · unfold truncateReason
    by_cases h : 70 < reason.length
    · rw [if_pos h, strLen_append]
      unfold pyTake
      rw [strLen_mk, List.length_take]
      have h67 : min 67 reason.data.length ≤ 67 := Nat.min_le_left _ _
      have h3 : ("..." : String).length = 3 := rfl
      omega
    · rw [if_neg h]
      omega
  · intro h
    unfold truncateReason
    rw [if_pos h]
  · intro h
    unfold truncateReason
    rw [if_neg (Nat.not_lt.mpr h)]
  · unfold wrapLines
    refine wrapAux_bound _ "" [] hwords ?_ (by simp)
    rw [pyStrip_empty]
    exact Nat.zero_le _

/-- C6 counterexample: a 30-character single-word reason is not truncated
(30 ≤ 70) and the greedy wrapper emits it unbroken, so one wrapped line has
30 > 27 characters, refuting the unconditional 27-character bound. -/
theorem wrap_overlong_word_counterexample :
    ¬ ∀ l ∈ wrapLines (truncateReason "Unbrokenreasonstringofthirtych"),
        l.length ≤ 27 := by decide

/-- C6 witness. -/
theorem reason_truncation_wrap_witness :
    (∀ w ∈ pySplitWs (truncateReason "Coordinated bundle buys detected across top holders"),
      w.length ≤ 27) ∧
    ∀ l ∈ wrapLines (truncateReason "Coordinated bundle buys detected across top holders"),
      l.length ≤ 27 :=
  ⟨by decide,
    (reason_truncation_wrap "Coordinated bundle buys detected across top holders"
      (by decide)).2.2.2⟩

theorem natDigitsAux_length_le :
    ∀ (fuel n k : Nat), n < fuel → n < 10 ^ k → 1 ≤ k →
      (natDigitsAux fuel n).length ≤ k := by
  intro fuel
  induction fuel with
  | zero => intro n k hn; exact absurd hn (Nat.not_lt_zero n)
  | succ fuel ih =>
    intro n k hn hk hk1
    rw [natDigitsAux]
    by_cases h10 : n < 10
    · rw [if_pos h10]
      simpa using hk1
    · rw [if_neg h10]
      have hk2 : 2 ≤ k := by
        rcases Nat.lt_or_ge k 2 with hlt | hge
        · interval_cases k
          · exact absurd h10 (by simpa using hk)
        · exact hge
      have hdiv : n / 10 < fuel := by omega
      have hdivk : n / 10 < 10 ^ (k - 1) := by
        have hpow : 10 ^ k = 10 ^ (k - 1) * 10 := by
          rw [← pow_succ]
          congr 1
          omega
        rw [Nat.div_lt_iff_lt_mul (by norm_num)]
        omega
      have := ih (n / 10) (k - 1) hdiv hdivk (by omega)
      rw [List.length_append]
      simp only [List.length_singleton]
      omega

theorem natStr_length_le {n k : Nat} (h : n < 10 ^ k) (hk : 1 ≤ k) :
    (natStr n).length ≤ k :=
  natDigitsAux_length_le (n + 1) n k (Nat.lt_succ_self n) h hk

theorem padZeros_length {d n : Nat} (h : (natStr n).length ≤ d) :
    (padZeros d n).length = d := by
  unfold padZeros
  rw [strLen_append, strLen_mk, List.length_replicate]
  omega

/-- C5 (amended): the currency formatter's branch structure, with the printed
number being the binary64 quotient rounded at the branch's decimal precision
(`mcapScaled`): inputs ≥ 1,000,000 print as `$<int>.<2 digits>M`, inputs in
[1,000, 1,000,000) as `$<int>.<1 digit>K`, positive inputs below 1,000 as a
bare rounded integer with no suffix, and 0 or an absent value as the literal
`"$0"`.  (Because the quotient is computed in binary64, at an exact decimal
tie the printed digits can differ from exact-rational rounding, e.g.
v = 1,015,000.) -/
theorem currency_format_branches (v : ℚ) :
    format_market_cap none = "$0" ∧
    format_market_cap (some 0) = "$0" ∧
    (1000000 ≤ v →
      format_market_cap (some v) =
        "$" ++ natStr (mcapScaled v 1000000 2 / 100) ++ "." ++
          padZeros 2 (mcapScaled v 1000000 2 % 100) ++ "M" ∧
      (padZeros 2 (mcapScaled v 1000000 2 % 100)).length = 2) ∧
    (1000 ≤ v → v < 1000000 →
      format_market_cap (some v) =
        "$" ++ natStr (mcapScaled v 1000 1 / 10) ++ "." ++
          padZeros 1 (mcapScaled v 1000 1 % 10) ++ "K" ∧
      (padZeros 1 (mcapScaled v 1000 1 % 10)).length = 1) ∧
    (0 < v → v < 1000 →
      format_market_cap (some v) = "$" ++ natStr (mcapScaled v 1 0)) := by
  refine ⟨rfl, by norm_num [format_market_cap], ?_, ?_, ?_⟩
  · intro h
    have hpos : (0 : ℚ) < v := lt_of_lt_of_le (by norm_num) h
    have hne : v ≠ 0 := ne_of_gt hpos
    have hnneg : ¬ v < 0 := not_lt.mpr hpos.le
    constructor
    · show (if v = 0 then "$0" else _) = _
      rw [if_neg hne, if_pos h]
      unfold pyDivFixed
      rw [if_neg hnneg]
      apply strExt
      have hrf : renderFixed (mcapScaled v 1000000 2) 2 =
          natStr (mcapScaled v 1000000 2 / 10 ^ 2) ++ "." ++
            padZeros 2 (mcapScaled v 1000000 2 % 10 ^ 2) := by
        unfold renderFixed
        rw [if_neg (by norm_num)]
      rw [hrf]
      norm_num
    · exact padZeros_length (natStr_length_le (by omega) (by norm_num))
  · intro h hub
    have hpos : (0 : ℚ) < v := lt_of_lt_of_le (by norm_num) h
    have hne : v ≠ 0 := ne_of_gt hpos
    have hnneg : ¬ v < 0 := not_lt.mpr hpos.le
    have hnM : ¬ (1000000 : ℚ) ≤ v := not_le.mpr hub
    constructor
    · show (if v = 0 then "$0" else _) = _
      rw [if_neg hne, if_neg hnM, if_pos h]
      unfold pyDivFixed
      rw [if_neg hnneg]
      apply strExt
      have hrf : renderFixed (mcapScaled v 1000 1) 1 =
          natStr (mcapScaled v 1000 1 / 10 ^ 1) ++ "." ++
            padZeros 1 (mcapScaled v 1000 1 % 10 ^ 1) := by
        unfold renderFixed
        rw [if_neg (by norm_num)]
      rw [hrf]
      norm_num
    · exact padZeros_length (natStr_length_le (by omega) (by norm_num))
  · intro hpos hub
    have hne : v ≠ 0 := ne_of_gt hpos
    have hnneg : ¬ v < 0 := not_lt.mpr hpos.le
    have hnM : ¬ (1000000 : ℚ) ≤ v := not_le.mpr (hub.trans (by norm_num))
    have hnK : ¬ (1000 : ℚ) ≤ v := not_le.mpr hub
    show (if v = 0 then "$0" else _) = _
    rw [if_neg hne, if_neg hnM, if_neg hnK]
    unfold pyDivFixed
    rw [if_neg hnneg]
    have hrf : renderFixed (mcapScaled v 1 0) 0 = natStr (mcapScaled v 1 0) := by
      unfold renderFixed
      rw [if_pos rfl]
    rw [hrf]
    apply strExt
    simp [strData_append]

/-- C5 counterexample: at v = 1,015,000 the exact two-decimal rounding of
v/1e6 = 1.015 is 1.02 (both for ties-to-even and ties-away-from-zero), but
the binary64 quotient is slightly below 1.015 and the code prints `$1.01M`. -/
theorem currency_tie_counterexample :
    format_market_cap (some 1015000) = "$1.01M" ∧
    ("$1.01M" : String) ≠ "$1.02M" := ⟨by decide, by decide⟩

/-- C5 witness. -/
theorem currency_format_branches_witness :
    (1000000 : ℚ) ≤ 2500000 ∧
    format_market_cap (some 2500000) =
      "$" ++ natStr (mcapScaled 2500000 1000000 2 / 100) ++ "." ++
        padZeros 2 (mcapScaled 2500000 1000000 2 % 100) ++ "M" :=
  ⟨by norm_num, ((currency_format_branches 2500000).2.2.1 (by norm_num)).1⟩

theorem natDigitsAux_ne_nil (fuel n : Nat) (h : 0 < fuel) :
    natDigitsAux fuel n ≠ [] := by
  cases fuel with
  | zero => exact absurd h (lt_irrefl 0)
  | succ f =>
    rw [natDigitsAux]
    by_cases h10 : n < 10
    · rw [if_pos h10]; simp
    · rw [if_neg h10]; simp

theorem natDigitsAux_getLast (fuel n : Nat) (h : 0 < fuel) :
    ∃ d, d < 10 ∧ (natDigitsAux fuel n).getLast? = some (digitChar d) := by
  cases fuel with
  | zero => exact absurd h (lt_irrefl 0)
  | succ f =>
    rw [natDigitsAux]
    by_cases h10 : n < 10
    · rw [if_pos h10]
      exact ⟨n, h10, rfl⟩
    · rw [if_neg h10]
      exact ⟨n % 10, Nat.mod_lt _ (by norm_num), List.getLast?_concat _⟩

theorem natStr_getLast (n : Nat) :
    ∃ d, d < 10 ∧ (natStr n).data.getLast? = some (digitChar d) :=
  natDigitsAux_getLast (n + 1) n (Nat.succ_pos n)

theorem natStr_data_ne_nil (n : Nat) : (natStr n).data ≠ [] :=
  natDigitsAux_ne_nil (n + 1) n (Nat.succ_pos n)

theorem digitChar_lt10_ne {d : Nat} (h : d < 10) :
    digitChar d ≠ 'K' ∧ digitChar d ≠ 'M' := by
  interval_cases d <;> exact ⟨by decide, by decide⟩

theorem getLast?_append_right {α : Type} (l₁ l₂ : List α) (h : l₂ ≠ []) :
    (l₁ ++ l₂).getLast? = l₂.getLast? := by
  induction l₁ with
  | nil => simp
  | cons x xs ih =>
    rw [List.cons_append]
    rcases hx : xs ++ l₂ with _ | ⟨y, ys⟩
    · exact absurd (List.append_eq_nil.mp hx).2 h
    · rw [hx] at ih
      rw [List.getLast?_cons_cons, ih]

/-- C10: every strictly negative input takes the final (suffix-free) branch of
the currency formatter: the output is `"$-"` followed by the decimal rendering
of the rounded magnitude, it is never the zero literal `"$0"`, and it carries
no `K`/`M` suffix (its last character is a decimal digit), regardless of the
magnitude of the input. -/
theorem negative_currency (v : ℚ) (hv : v < 0) :
    format_market_cap (some v) = "$-" ++ natStr (mcapScaled v 1 0) ∧
    format_market_cap (some v) ≠ "$0" ∧
    (format_market_cap (some v)).data.getLast? ≠ some 'K' ∧
    (format_market_cap (some v)).data.getLast? ≠ some 'M' := by
  have hne : v ≠ 0 := ne_of_lt hv
  have hnM : ¬ (1000000 : ℚ) ≤ v := not_le.mpr (hv.trans (by norm_num))
  have hnK : ¬ (1000 : ℚ) ≤ v := not_le.mpr (hv.trans (by norm_num))
  have hmain : format_market_cap (some v) = "$-" ++ natStr (mcapScaled v 1 0) := by
    show (if v = 0 then "$0" else _) = _
    rw [if_neg hne, if_neg hnM, if_neg hnK]
    unfold pyDivFixed
    rw [if_pos hv]
    have hrf : renderFixed (mcapScaled v 1 0) 0 = natStr (mcapScaled v 1 0) := by
      unfold renderFixed
      rw [if_pos rfl]
    rw [hrf]
    apply strExt
    simp [strData_append]
  obtain ⟨d, hd, hlast⟩ := natStr_getLast (mcapScaled v 1 0)
  have hKM := digitChar_lt10_ne hd
  have htail : (format_market_cap (some v)).data.getLast? = some (digitChar d) := by
    rw [hmain, strData_append,
      getLast?_append_right _ _ (natStr_data_ne_nil (mcapScaled v 1 0)), hlast]
  refine ⟨hmain, ?_, ?_, ?_⟩
  · rw [hmain]
    intro h
    have hdata := congrArg String.data h
    rw [strData_append] at hdata
    simp at hdata
  · rw [htail]
    intro h
    exact hKM.1 (Option.some.inj h)
  · rw [htail]
    intro h
    exact hKM.2 (Option.some.inj h)

/-- C10 witness. -/
theorem negative_currency_witness :
    (-5000 : ℚ) < 0 ∧
    format_market_cap (some (-5000)) = "$-" ++ natStr (mcapScaled (-5000) 1 0) ∧
    format_market_cap (some (-5000)) ≠ "$0" :=
  ⟨by norm_num, (negative_currency (-5000) (by norm_num)).1,
    (negative_currency (-5000) (by norm_num)).2.1⟩

/-- C7 (amended): with the catalog total of 8 used at every call site and any
reveal index up to the total, the binary64 computation does reproduce the
exact floors: the filled-cell count is ⌊20·current/8⌋ and the percentage is
⌊100·current/8⌋; in particular 3 of 8 renders 7 filled cells of 20 and 37%.
(For arbitrary totals the binary64 rounding can land one below the exact
floor, e.g. current = 29, total = 100.) -/
theorem progress_floor_catalog : ∀ current : Nat, current ≤ 8 →
    progressScaled current 8 20 = 20 * current / 8 ∧
    progressScaled current 8 100 = 100 * current / 8 ∧
    format_progress_bar 3 8 = "[███████░░░░░░░░░░░░░] 37%" := by decide

/-- C7 counterexample: at current = 29, total = 100 the code computes
`int((29/100)*100) = 28` in binary64 while ⌊100·29/100⌋ = 29. -/
theorem progress_floor_counterexample :
    progressScaled 29 100 100 ≠ 100 * 29 / 100 := by decide

/-- C7 witness. -/
theorem progress_floor_catalog_witness :
    (3 : Nat) ≤ 8 ∧
    (progressScaled 3 8 20 = 20 * 3 / 8 ∧
      progressScaled 3 8 100 = 100 * 3 / 8 ∧
      format_progress_bar 3 8 = "[███████░░░░░░░░░░░░░] 37%") :=
  ⟨by decide, progress_floor_catalog 3 (by decide)⟩

/-- C8: a failing edit whose error text contains the content-unchanged marker
(case-insensitively) is swallowed — the guarded edit returns success and the
sequencer continues exactly as if the edit had succeeded — while any other
edit failure escalates: the run stops at once and reports the unexpected-error
text, performing no further edits. -/
theorem edit_failure_handling (t : String) (ts : List String)
    (os : List EditOutcome) (s : String) :
    (strContains (pyLower s) notModifiedNeedle = true →
      attemptEdit (.raised s) = .ok () ∧
      runSeqAux (t :: ts) (.raised s :: os) = runSeqAux (t :: ts) (.ok :: os)) ∧
    (strContains (pyLower s) notModifiedNeedle = false →
      attemptEdit (.raised s) = .error s ∧
      runSeqAux (t :: ts) (.raised s :: os) =
        ([], some (unexpectedErrorText s))) := by
  have hok : attemptEdit .ok = .ok () := rfl
  constructor
  · intro h
    have ha : attemptEdit (.raised s) = .ok () := by
      simp [attemptEdit, h]
    exact ⟨ha, by simp only [runSeqAux, ha, hok]⟩
  · intro h
    have ha : attemptEdit (.raised s) = .error s := by
      simp [attemptEdit, h]
    exact ⟨ha, by simp only [runSeqAux, ha]⟩

/-- C8 witness. -/
theorem edit_failure_handling_witness :
    (strContains (pyLower "Bad Request: Message is not modified")
        notModifiedNeedle = true ∧
      runSeqAux ["a"] [.raised "Bad Request: Message is not modified"] =
        runSeqAux ["a"] [.ok]) ∧
    (strContains (pyLower "Flood control exceeded") notModifiedNeedle = false ∧
      runSeqAux ["a"] [.raised "Flood control exceeded"] =
        ([], some (unexpectedErrorText "Flood control exceeded"))) :=
  ⟨⟨by decide,
      ((edit_failure_handling "a" [] [] "Bad Request: Message is not modified").1
        (by decide)).2⟩,
    ⟨by decide,
      ((edit_failure_handling "a" [] [] "Flood control exceeded").2
        (by decide)).2⟩⟩

/-- C9: the verdict formatter maps the risk level Low to the green glyph,
High to the red glyph, and Medium as well as any other value to the default
yellow glyph, and it truncates the recommendation to its first 147 characters
plus an ellipsis exactly when the recommendation does not fit the 150-column
budget (length > 150), leaving shorter recommendations untouched. -/
theorem verdict_glyph_truncation (risk_level recommendation : String) :
    riskEmoji "Low" = "🟢" ∧ riskEmoji "High" = "🔴" ∧ riskEmoji "Medium" = "🟡" ∧
    (risk_level ≠ "Low" → risk_level ≠ "Medium" → risk_level ≠ "High" →
      riskEmoji risk_level = "🟡") ∧
    (recommendation.length ≤ 150 →
      truncRecommendation recommendation = recommendation) ∧
    (150 < recommendation.length →
      truncRecommendation recommendation = pyTake recommendation 147 ++ "..." ∧
      (truncRecommendation recommendation).length = 150) := by
  refine ⟨by decide, by decide, by decide, ?_, ?_, ?_⟩
  · intro h1 h2 h3
    unfold riskEmoji
    have e1 : (risk_level == "Low") = false := beq_eq_false_iff_ne.mpr h1
    have e2 : (risk_level == "Medium") = false := beq_eq_false_iff_ne.mpr h2
    have e3 : (risk_level == "High") = false := beq_eq_false_iff_ne.mpr h3
    simp [List.lookup, e1, e2, e3]
  · intro h
    unfold truncRecommendation
    rw [if_neg (Nat.not_lt.mpr h)]
  · intro h
    have hlen : recommendation.length = recommendation.data.length := rfl
    refine ⟨?_, ?_⟩
    · unfold truncRecommendation
      rw [if_pos h]
    · unfold truncRecommendation
      rw [if_pos h, strLen_append]
      unfold pyTake
      rw [strLen_mk, List.length_take]
      have h3 : ("..." : String).length = 3 := rfl
      omega

set_option maxRecDepth 8000 in
/-- C9 witness. -/
theorem verdict_glyph_truncation_witness :
    ("Critical" : String) ≠ "Low" ∧ 150 < recEx.length ∧
    riskEmoji "Critical" = "🟡" ∧
    truncRecommendation recEx = pyTake recEx 147 ++ "..." ∧
    (truncRecommendation recEx).length = 150 :=
  ⟨by decide, by decide,
    (verdict_glyph_truncation "Critical" recEx).2.2.2.1 (by decide) (by decide)
      (by decide),
    ((verdict_glyph_truncation "Critical" recEx).2.2.2.2.2 (by decide)).1,
    ((verdict_glyph_truncation "Critical" recEx).2.2.2.2.2 (by decide)).2⟩

/-- C1 witness. -/
theorem step_panels_exact_witness :
    stepsCompleted aDemo 1 8 =
      ANALYSIS_STEPS.enum.filterMap (stepSelect aDemo 1 8) ∧
    stepSelect aDemo 1 8 (2, ⟨"topHolders", "Top Holders Analysis", "👥"⟩) = none ∧
    stepSelect aDemo 1 8 (1, ⟨"devHistory", "Developer History", "👤"⟩) = none ∧
    stepSelect aDemo 1 8 (0, ⟨"bundles", "Bundle Detection", "🎯"⟩) =
      some (format_analysis_step "bundles"
        ⟨some "12 bundles", some "warning", some "Coordinated buys detected"⟩ 0 8) :=
  ⟨(step_panels_exact aDemo 1 8).1,
    (step_panels_exact aDemo 1 8).2.1
      (2, ⟨"topHolders", "Top Holders Analysis", "👥"⟩) (by decide),
    (step_panels_exact aDemo 1 8).2.2.1
      (1, ⟨"devHistory", "Developer History", "👤"⟩) (by decide),
    (step_panels_exact aDemo 1 8).2.2.2
      (0, ⟨"bundles", "Bundle Detection", "🎯"⟩)
      ⟨some "12 bundles", some "warning", some "Coordinated buys detected"⟩
      (by decide) (by decide)⟩
